import Mathlib

/-!
# Verification of the Village Builders quotation generator

Shallow embedding of the quotation tool's core logic: the totals calculator,
the number-to-words formatter, the page allocator (item chunking plus the
footer-fit check), the global serial numbering, the footer-row gating of the
renderer variants, and the complementary box-width state of the editor.

Sources embedded:
* `src/src/components/QuotationPreview.tsx` — two renderer variants
  (variant 1: caps 8/12, thresholds `3 + signatureSpacing` / `6 + signatureSpacing`,
  rounded grand total with a words form, unconditional Sub-total row;
  variant 2: caps 8/12, fixed thresholds 5/8, unrounded grand total, no words
  form, Sub Total row gated on `hasTax`).
* `src/unnamed/part_000` — a third variant (caps 12/15, capacities
  `10/13 − ⌊notesLines/3⌋ + ⌊signatureSpacing/2⌋`, rounded grand total with a
  words form, unconditional Sub-total row).
* `src/App.tsx`, `src/types.ts` — box-width sliders and the initial document.

JavaScript numbers are modelled as rationals (`ℚ`); `Math.round` as
`⌊x + 1/2⌋`, `Math.floor` as `⌊x⌋`.
-/

namespace Village

/-- A quotation line item (`types.ts`, `QuotationItem`). -/
structure QuotationItem where
  id : String
  description : String
  unit : String
  quantity : ℚ
  unitCost : ℚ
  deriving DecidableEq

/-- The slice of the document the totals calculator and footer need
(`types.ts`, `QuotationData`: items and the two tax-rate percentages). -/
structure QuotationData where
  items : List QuotationItem
  vatRate : ℚ
  taxRate : ℚ
  deriving DecidableEq

/-- JavaScript `Math.round`: round half toward positive infinity. -/
def jsRound (x : ℚ) : ℤ := ⌊x + 1 / 2⌋

/-- `calculateTotal` (both QuotationPreview variants and part_000):
`items.reduce((acc, item) => acc + item.quantity * item.unitCost, 0)`. -/
def calculateTotal (items : List QuotationItem) : ℚ :=
  items.foldl (fun acc it => acc + it.quantity * it.unitCost) 0

/-- `const subTotal = calculateTotal(data.items)`. -/
def subTotal (d : QuotationData) : ℚ := calculateTotal d.items

/-- `const vatAmount = subTotal * ((data.vatRate || 0) / 100)`. -/
def vatAmount (d : QuotationData) : ℚ := subTotal d * (d.vatRate / 100)

/-- `const taxAmount = subTotal * ((data.taxRate || 0) / 100)`. -/
def taxAmount (d : QuotationData) : ℚ := subTotal d * (d.taxRate / 100)

/-- `const hasTax = (data.vatRate || 0) > 0 || (data.taxRate || 0) > 0`. -/
def hasTax (d : QuotationData) : Bool :=
  decide (0 < d.vatRate) || decide (0 < d.taxRate)

/-- Variant 1 and part_000:
`const grandTotal = Math.round(subTotal + vatAmount + taxAmount)`. -/
def grandTotal1 (d : QuotationData) : ℤ :=
  jsRound (subTotal d + vatAmount d + taxAmount d)

/-- Variant 2 (QuotationPreview.tsx, embedded second component, line 374):
`const grandTotal = subTotal + vatAmount + taxAmount` — no rounding. -/
def grandTotal2 (d : QuotationData) : ℚ :=
  subTotal d + vatAmount d + taxAmount d

/-! ## Number-to-words formatter (`numberToWords`, variant 1 and part_000) -/

/-- `const ones = ['', 'One', ..., 'Nine']`. -/
def onesWords : List String :=
  ["", "One", "Two", "Three", "Four", "Five", "Six", "Seven", "Eight", "Nine"]

/-- `const teens = ['Ten', ..., 'Nineteen']`. -/
def teensWords : List String :=
  ["Ten", "Eleven", "Twelve", "Thirteen", "Fourteen", "Fifteen", "Sixteen",
   "Seventeen", "Eighteen", "Nineteen"]

/-- `const tens = ['', '', 'Twenty', ..., 'Ninety']`. -/
def tensWords : List String :=
  ["", "", "Twenty", "Thirty", "Forty", "Fifty", "Sixty", "Seventy", "Eighty",
   "Ninety"]

/-- `const thousands = ['', 'Thousand', 'Million', 'Billion']`. -/
def thousandsWords : List String := ["", "Thousand", "Million", "Billion"]

/-- `convertHundreds`: render a value below 1000 (also fed the Cents value). -/
def convertHundreds (n : ℕ) : String :=
  let s1 := if 100 ≤ n then onesWords.getD (n / 100) "" ++ " Hundred " else ""
  let m := if 100 ≤ n then n % 100 else n
  let s2 :=
    if 10 ≤ m ∧ m ≤ 19 then s1 ++ teensWords.getD (m - 10) "" ++ " "
    else if 20 ≤ m ∨ 0 < m then
      s1 ++ tensWords.getD (m / 10) "" ++ " " ++ onesWords.getD (m % 10) "" ++ " "
    else s1
  s2.trim

/-- The base-1000 grouping loop of `numberToWords`
(`while (tempNum > 0) { ... tempNum = Math.floor(tempNum / 1000); }`). -/
def intWordsAux (tempNum groupIndex : ℕ) (result : String) : String :=
  if h : tempNum = 0 then result
  else
    let group := tempNum % 1000
    let tw := thousandsWords.getD groupIndex ""
    let result' :=
      if group ≠ 0 then
        convertHundreds group ++ (if tw ≠ "" then " " ++ tw else "") ++ " " ++ result
      else result
    intWordsAux (tempNum / 1000) (groupIndex + 1) result'
termination_by tempNum
decreasing_by
  exact Nat.div_lt_self (Nat.pos_of_ne_zero h) (by norm_num)

/-- `const decimalPart = Math.round((num - integerPart) * 100)` where
`integerPart = Math.floor(num)`. -/
def decimalPart (num : ℚ) : ℤ := jsRound ((num - (⌊num⌋ : ℚ)) * 100)

/-- `numberToWords` (variant 1 lines 15–61, identical in part_000). -/
def numberToWords (num : ℚ) : String :=
  if num = 0 then "Zero"
  else
    let integerPart : ℤ := ⌊num⌋
    let dp := decimalPart num
    let r1 := intWordsAux integerPart.toNat 0 ""
    let r2 := r1.trim ++ " Dollars"
    let r3 := if 0 < dp then r2 ++ " and " ++ convertHundreds dp.toNat ++ " Cents" else r2
    r3.trim

/-- `const grandTotalInWords = numberToWords(grandTotal)` (variant 1, part_000). -/
def grandTotalInWords1 (d : QuotationData) : String :=
  numberToWords ((grandTotal1 d : ℚ))

/-! ## Page allocator -/

/-- Page kind tag: `'first' | 'standard' | 'footer-only'`. -/
inductive PageKind where
  | first
  | standard
  | footerOnly
  deriving DecidableEq, Repr

/-- A page descriptor: `{ type, items }`. -/
structure Page (α : Type) where
  kind : PageKind
  items : List α
  deriving DecidableEq

/-- The continuation-chunk loop:
`while (items.length > 0) { const chunk = items.splice(0, ITEMS_PER_PAGE); ... }`.
(The `per = 0` guard is unreachable for the source's constants 12 and 15.) -/
def chunksOf {α : Type} (per : ℕ) (l : List α) : List (List α) :=
  if h : l.isEmpty then []
  else if hp : per = 0 then []
  else l.take per :: chunksOf per (l.drop per)
termination_by l.length
decreasing_by
  have h1 : 0 < l.length := List.length_pos.mpr (by simpa using h)
  simp only [List.length_drop]
  omega

/-- The chunking step: first-page splice of up to `firstCap` items, then the
continuation chunks of up to `per` items each. -/
def allocatePages {α : Type} (firstCap per : ℕ) (items : List α) : List (Page α) :=
  ⟨PageKind.first, items.take firstCap⟩ ::
    (chunksOf per (items.drop firstCap)).map fun c => ⟨PageKind.standard, c⟩

/-- The fit threshold selected by the last page's kind:
`lastPage.type === 'first' ? thresholdFirstPage : thresholdStandardPage`. -/
def fitThreshold (thFirst thStd : ℤ) (k : PageKind) : ℤ :=
  if k = PageKind.first then thFirst else thStd

/-- `const isLastPageFull = lastPage.items.length > (lastPage.type === 'first' ? ... : ...)`. -/
def isLastPageFull {α : Type} (thFirst thStd : ℤ) (pages : List (Page α)) : Bool :=
  match pages.getLast? with
  | none => false
  | some p => decide ((p.items.length : ℤ) > fitThreshold thFirst thStd p.kind)

/-- The full allocator: chunk, then
`if (isLastPageFull) { pages.push({ type: 'footer-only', items: [] }); }`. -/
def quotationPages {α : Type} (firstCap per : ℕ) (thFirst thStd : ℤ)
    (items : List α) : List (Page α) :=
  if isLastPageFull thFirst thStd (allocatePages firstCap per items) then
    allocatePages firstCap per items ++ [⟨PageKind.footerOnly, []⟩]
  else allocatePages firstCap per items

/-- `const isLastPage = pageIndex === pages.length - 1; const showFooter = isLastPage`. -/
def showFooter {α : Type} (pages : List (Page α)) (pageIndex : ℕ) : Bool :=
  decide (pageIndex = pages.length - 1)

/-- Variant 1 allocator (QuotationPreview.tsx, first component):
`ITEMS_PER_FIRST_PAGE = 8`, `ITEMS_PER_PAGE = 12`,
`thresholdFirstPage = 3 + data.signatureSpacing`,
`thresholdStandardPage = 6 + data.signatureSpacing`
(the signature-spacing slider ranges over 0–12, App.tsx). -/
def variant1Pages (signatureSpacing : ℕ) (items : List QuotationItem) :
    List (Page QuotationItem) :=
  quotationPages 8 12 (3 + (signatureSpacing : ℤ)) (6 + (signatureSpacing : ℤ)) items

/-- Variant 2 allocator (QuotationPreview.tsx, embedded second component):
`ITEMS_PER_FIRST_PAGE = 8`, `ITEMS_PER_PAGE = 12`, fixed thresholds 5 and 8. -/
def variant2Pages (items : List QuotationItem) : List (Page QuotationItem) :=
  quotationPages 8 12 5 8 items

/-- part_000: `const notesLines = hasNotes ? Math.ceil(data.notes.length / 80) : 0`
with `hasNotes = data.notes && data.notes.trim().length > 0`. -/
def part000NotesLines (notes : String) : ℕ :=
  if 0 < notes.trim.length then (notes.length + 79) / 80 else 0

/-- part_000: `firstPageCapacity = 10 - Math.floor(notesLines / 3) + Math.floor(signatureSpacing / 2)`. -/
def part000FirstCapacity (notes : String) (signatureSpacing : ℕ) : ℤ :=
  10 - ((part000NotesLines notes / 3 : ℕ) : ℤ) + ((signatureSpacing / 2 : ℕ) : ℤ)

/-- part_000: `standardPageCapacity = 13 - Math.floor(notesLines / 3) + Math.floor(signatureSpacing / 2)`. -/
def part000StandardCapacity (notes : String) (signatureSpacing : ℕ) : ℤ :=
  13 - ((part000NotesLines notes / 3 : ℕ) : ℤ) + ((signatureSpacing / 2 : ℕ) : ℤ)

/-- part_000 allocator: `ITEMS_PER_FIRST_PAGE = 12`, `ITEMS_PER_PAGE = 15`,
dynamically derived capacities. -/
def part000Pages (notes : String) (signatureSpacing : ℕ)
    (items : List QuotationItem) : List (Page QuotationItem) :=
  quotationPages 12 15 (part000FirstCapacity notes signatureSpacing)
    (part000StandardCapacity notes signatureSpacing) items

/-! ## Global serial numbering -/

/-- The page's starting offset inside `globalIndex`:
`pageIndex === 0 ? 0 : ITEMS_PER_FIRST_PAGE + (pageIndex - 1) * ITEMS_PER_PAGE`. -/
def pageStartOffset (firstCap per pageIndex : ℕ) : ℕ :=
  if pageIndex = 0 then 0 else firstCap + (pageIndex - 1) * per

/-- The serial numbers printed on one page:
`globalIndex = offset + idx + 1` for each row `idx` of the page's chunk. -/
def pageLabels {α : Type} (firstCap per pageIndex : ℕ) (p : Page α) : List ℕ :=
  (List.range p.items.length).map fun idx =>
    pageStartOffset firstCap per pageIndex + idx + 1

/-- Serial numbers of a page list starting at a given page index. -/
def allLabelsFrom {α : Type} (firstCap per : ℕ) : ℕ → List (Page α) → List ℕ
  | _, [] => []
  | pi, p :: rest =>
      pageLabels firstCap per pi p ++ allLabelsFrom firstCap per (pi + 1) rest

/-- All serial numbers of the rendered document, in output order
(`pages.map((page, pageIndex) => ... page.items.map((item, idx) => globalIndex ...)`). -/
def allLabels {α : Type} (firstCap per : ℕ) (pages : List (Page α)) : List ℕ :=
  allLabelsFrom firstCap per 0 pages

/-! ## Footer rows of the totals table -/

/-- The rows the footer's totals table can render. -/
inductive FooterRow where
  | subTotalRow
  | vatRow
  | taxRow
  | grandTotalRow
  deriving DecidableEq, Repr

/-- Variant 1 footer (QuotationPreview.tsx lines 245–283, identical gating in
part_000): Sub-total row unconditional, each tax row gated on its rate being
positive, Grand Total card unconditional. -/
def footerRows1 (d : QuotationData) : List FooterRow :=
  [FooterRow.subTotalRow]
    ++ (if 0 < d.vatRate then [FooterRow.vatRow] else [])
    ++ (if 0 < d.taxRate then [FooterRow.taxRow] else [])
    ++ [FooterRow.grandTotalRow]

/-- Variant 2 footer (QuotationPreview.tsx lines 514–549): the Sub Total row is
wrapped in `{hasTax && (...)}`; tax rows gated on their rates; the final
Grand Total / Total Amount row unconditional. -/
def footerRows2 (d : QuotationData) : List FooterRow :=
  (if hasTax d then [FooterRow.subTotalRow] else [])
    ++ (if 0 < d.vatRate then [FooterRow.vatRow] else [])
    ++ (if 0 < d.taxRate then [FooterRow.taxRow] else [])
    ++ [FooterRow.grandTotalRow]

/-! ## Box-width state (App.tsx sliders, types.ts initial document) -/

/-- The two layout-proportion fields. `types.ts` declares neither field on
`QuotationData` and `INITIAL_DATA` initializes neither, so each is optional. -/
structure WidthState where
  notesBoxWidth : Option ℤ
  totalBoxWidth : Option ℤ
  deriving DecidableEq

/-- The initial document (`INITIAL_DATA`, types.ts lines 32–57): no
`notesBoxWidth` or `totalBoxWidth` entry appears in the initializer. -/
def initialWidthState : WidthState := ⟨none, none⟩

/-- App.tsx line 689: `setData({...data, notesBoxWidth: parseInt(v), totalBoxWidth: 100 - parseInt(v)})`. -/
def setNotesBoxWidth (_ : WidthState) (v : ℤ) : WidthState :=
  ⟨some v, some (100 - v)⟩

/-- App.tsx line 709: `setData({...data, totalBoxWidth: parseInt(v), notesBoxWidth: 100 - parseInt(v)})`. -/
def setTotalBoxWidth (_ : WidthState) (v : ℤ) : WidthState :=
  ⟨some (100 - v), some v⟩

/-- The claimed invariant: both widths are present and sum to 100. -/
def widthSumInvariant (s : WidthState) : Bool :=
  match s.notesBoxWidth, s.totalBoxWidth with
  | some a, some b => decide (a + b = 100)
  | _, _ => false

/-- A concrete line item used in witnesses and counterexamples
(the default item of `INITIAL_DATA`). -/
def sampleItem : QuotationItem :=
  ⟨"1", "Excavation Work and Back Filling", "M3", 1, 90090⟩

/-- A second concrete line item for permutation witnesses. -/
def sampleItem2 : QuotationItem :=
  ⟨"2", "Brick Work", "Sqft", 2, 150⟩

/-- A document whose exact grand total is the non-integer 1/2. -/
def halfDollarData : QuotationData :=
  ⟨[⟨"1", "x", "u", 1, 1 / 2⟩], 0, 0⟩

/-- A document with both tax rates zero. -/
def zeroRatesData : QuotationData := ⟨[sampleItem, sampleItem2], 0, 0⟩

/-! ## Helper lemmas about the chunking loop -/

theorem chunksOf_nil {α : Type} (per : ℕ) : chunksOf per ([] : List α) = [] := by
  simp [chunksOf]

theorem chunksOf_cons {α : Type} (per : ℕ) (hper : 0 < per) (l : List α)
    (hl : l ≠ []) : chunksOf per l = l.take per :: chunksOf per (l.drop per) := by
  rw [chunksOf]
  simp [hl, Nat.pos_iff_ne_zero.mp hper]

theorem join_chunksOf {α : Type} (per : ℕ) (hper : 0 < per) (l : List α) :
    (chunksOf per l).flatten = l := by
  by_cases hl : l = []
  · subst hl; simp [chunksOf_nil]
  · rw [chunksOf_cons per hper l hl]
    have ih := join_chunksOf per hper (l.drop per)
    simp [ih]
termination_by l.length
decreasing_by
  have h1 : 0 < l.length := List.length_pos.mpr hl
  simp only [List.length_drop]
  omega

theorem chunksOf_dropLast_full {α : Type} (per : ℕ) (hper : 0 < per) (l : List α) :
    ∀ c ∈ (chunksOf per l).dropLast, c.length = per := by
  by_cases hl : l = []
  · subst hl; simp [chunksOf_nil]
  · rw [chunksOf_cons per hper l hl]
    by_cases h2 : chunksOf per (l.drop per) = []
    · simp [h2]
    · rw [List.dropLast_cons_of_ne_nil h2]
      intro c hc
      rcases List.mem_cons.mp hc with hc1 | hc2
      · have hd : l.drop per ≠ [] := by
          intro h3
          exact h2 (by rw [h3]; exact chunksOf_nil per)
        have hlen : per < l.length := by
          by_contra hcon
          exact hd (List.drop_eq_nil_iff.mpr (by omega))
        subst hc1
        simp [List.length_take]
        omega
      · exact chunksOf_dropLast_full per hper (l.drop per) c hc2
termination_by l.length
decreasing_by
  have h1 : 0 < l.length := List.length_pos.mpr hl
  simp only [List.length_drop]
  omega

theorem chunksOf_ne_nil {α : Type} (per : ℕ) (hper : 0 < per) (l : List α) :
    ∀ c ∈ chunksOf per l, c ≠ [] := by
  by_cases hl : l = []
  · subst hl; simp [chunksOf_nil]
  · rw [chunksOf_cons per hper l hl]
    intro c hc
    rcases List.mem_cons.mp hc with hc1 | hc2
    · subst hc1
      simp [List.take_eq_nil_iff, hl, Nat.pos_iff_ne_zero.mp hper]
    · exact chunksOf_ne_nil per hper (l.drop per) c hc2
termination_by l.length
decreasing_by
  have h1 : 0 < l.length := List.length_pos.mpr hl
  simp only [List.length_drop]
  omega

/-- The allocator's item chunks, concatenated, give back the item list. -/
theorem join_map_items_quotationPages {α : Type} (firstCap per : ℕ)
    (hper : 0 < per) (thF thS : ℤ) (items : List α) :
    ((quotationPages firstCap per thF thS items).map Page.items).flatten = items := by
  have hbase : ((allocatePages firstCap per items).map Page.items).flatten = items := by
    simp only [allocatePages, List.map_cons, List.map_map]
    have hcomp : (Page.items ∘ fun c => (⟨PageKind.standard, c⟩ : Page α)) = id := rfl
    rw [hcomp, List.map_id, List.flatten_cons, join_chunksOf per hper,
      List.take_append_drop]
  unfold quotationPages
  split
  · simp only [List.map_append, List.flatten_append]
    rw [hbase]
    simp
  · exact hbase

/-! ## Helper lemmas about the global serial numbers -/

theorem allLabelsFrom_append_footer {α : Type} (firstCap per : ℕ)
    (ps : List (Page α)) : ∀ i,
    allLabelsFrom firstCap per i (ps ++ [⟨PageKind.footerOnly, []⟩]) =
      allLabelsFrom firstCap per i ps := by
  induction ps with
  | nil => intro i; simp [allLabelsFrom, pageLabels]
  | cons p rest ih =>
      intro i
      simp only [List.cons_append, allLabelsFrom, List.append_eq, ih]

theorem allLabelsFrom_chunks {α : Type} (firstCap per : ℕ) (hper : 0 < per)
    (l : List α) : ∀ i,
    allLabelsFrom firstCap per (i + 1)
        ((chunksOf per l).map fun c => (⟨PageKind.standard, c⟩ : Page α)) =
      (List.range l.length).map fun k => firstCap + i * per + k + 1 := by
  by_cases hl : l = []
  · subst hl; simp [chunksOf_nil, allLabelsFrom]
  · intro i
    rw [chunksOf_cons per hper l hl]
    simp only [List.map_cons, allLabelsFrom]
    rw [allLabelsFrom_chunks firstCap per hper (l.drop per) (i + 1)]
    have hoff : pageStartOffset firstCap per (i + 1) = firstCap + i * per := by
      simp [pageStartOffset]
    have hsplit : l.length = min per l.length + (l.length - per) := by omega
    rw [pageLabels, hoff]
    rw [hsplit, List.range_add, List.map_append, List.map_map,
      List.length_take, List.length_drop]
    congr 1
    by_cases hpl : per < l.length
    · have hmin : min per l.length = per := by omega
      rw [hmin]
      apply List.map_congr_left
      intro k _
      simp only [Function.comp_apply]
      ring
    · have h0 : l.length - per = 0 := by omega
      rw [h0]
      simp
termination_by l.length
decreasing_by
  have h1 : 0 < l.length := List.length_pos.mpr hl
  simp only [List.length_drop]
  omega

theorem allLabels_quotationPages {α : Type} (firstCap per : ℕ) (hper : 0 < per)
    (thF thS : ℤ) (items : List α) :
    allLabels firstCap per (quotationPages firstCap per thF thS items) =
      (List.range items.length).map (· + 1) := by
  have hbase : allLabels firstCap per (allocatePages firstCap per items) =
      (List.range items.length).map (· + 1) := by
    unfold allLabels allocatePages allLabelsFrom
    rw [allLabelsFrom_chunks firstCap per hper (items.drop firstCap) 0]
    have hoff : pageStartOffset firstCap per 0 = 0 := by simp [pageStartOffset]
    rw [pageLabels, hoff]
    have hsplit : items.length = min firstCap items.length +
        (items.length - firstCap) := by omega
    rw [hsplit, List.range_add, List.map_append, List.map_map,
      List.length_take, List.length_drop]
    congr 1
    · apply List.map_congr_left
      intro k _
      omega
    · by_cases hfl : firstCap < items.length
      · have hmin : min firstCap items.length = firstCap := by omega
        rw [hmin]
        apply List.map_congr_left
        intro k _
        simp only [Function.comp_apply]
        omega
      · have h0 : items.length - firstCap = 0 := by omega
        rw [h0]
        simp
  unfold quotationPages
  split
  · unfold allLabels
    rw [allLabelsFrom_append_footer]
    exact hbase
  · exact hbase

/-! ## Claim theorems -/

/-- C1. For every item list, each allocator variant's page descriptors, with
their item sub-sequences concatenated in descriptor order, reconstruct the
original item list exactly — no loss, no duplication, no reordering
(variant 1 and variant 2 of QuotationPreview.tsx and the part_000 variant,
for every signature-spacing value and every notes text). -/
theorem allocator_reconstructs_items (s : ℕ) (notes : String)
    (items : List QuotationItem) :
    ((variant1Pages s items).map Page.items).flatten = items ∧
    ((variant2Pages items).map Page.items).flatten = items ∧
    ((part000Pages notes s items).map Page.items).flatten = items :=
  ⟨join_map_items_quotationPages 8 12 (by norm_num) _ _ items,
   join_map_items_quotationPages 8 12 (by norm_num) _ _ items,
   join_map_items_quotationPages 12 15 (by norm_num) _ _ items⟩

/-- C6. The global serial numbers rendered across the whole document — page
offset (`0` for the first page, `ITEMS_PER_FIRST_PAGE + (pageIndex-1) *
ITEMS_PER_PAGE` otherwise) plus in-page position plus one — form exactly the
sequence `1, 2, …, L`: strictly increasing by 1, contiguous and gap-free
across page boundaries, in every allocator variant. -/
theorem serial_numbers_contiguous (s : ℕ) (notes : String)
    (items : List QuotationItem) :
    allLabels 8 12 (variant1Pages s items) =
      (List.range items.length).map (· + 1) ∧
    allLabels 8 12 (variant2Pages items) =
      (List.range items.length).map (· + 1) ∧
    allLabels 12 15 (part000Pages notes s items) =
      (List.range items.length).map (· + 1) :=
  ⟨allLabels_quotationPages 8 12 (by norm_num) _ _ items,
   allLabels_quotationPages 8 12 (by norm_num) _ _ items,
   allLabels_quotationPages 12 15 (by norm_num) _ _ items⟩

/-- C5. An empty item list yields exactly one page descriptor, of kind
`first`, with an empty item list, no appended `footer-only` descriptor, and
the footer renders on that single descriptor (shown for the cited
QuotationPreview.tsx allocator — variant 1, every slider value — and for
variant 2). -/
theorem empty_items_single_first_page (s : ℕ) :
    variant1Pages s [] = [⟨PageKind.first, []⟩] ∧
    variant2Pages [] = [⟨PageKind.first, []⟩] ∧
    showFooter (variant1Pages s []) 0 = true ∧
    showFooter (variant2Pages []) 0 = true := by
  have halloc : allocatePages 8 12 ([] : List QuotationItem) =
      [⟨PageKind.first, []⟩] := by
    simp [allocatePages, chunksOf_nil]
  have h1 : variant1Pages s [] = [⟨PageKind.first, []⟩] := by
    unfold variant1Pages quotationPages
    rw [halloc]
    have hfull : isLastPageFull (3 + (s : ℤ)) (6 + (s : ℤ))
        [(⟨PageKind.first, []⟩ : Page QuotationItem)] = false := by
      simp [isLastPageFull, fitThreshold]
      omega
    rw [hfull]
    simp
  have h2 : variant2Pages [] = [⟨PageKind.first, []⟩] := by
    unfold variant2Pages quotationPages
    rw [halloc]
    have hfull : isLastPageFull (5 : ℤ) (8 : ℤ)
        [(⟨PageKind.first, []⟩ : Page QuotationItem)] = false := by
      simp [isLastPageFull, fitThreshold]
    rw [hfull]
    simp
  refine ⟨h1, h2, ?_, ?_⟩
  · rw [h1]; simp [showFooter]
  · rw [h2]; simp [showFooter]

/-- C2. The footer-overflow check is strictly-greater-than: when the last
chunked descriptor's item count exactly equals the fit threshold for its kind
(first-page threshold for kind `first`, standard-page threshold otherwise) no
`footer-only` descriptor is appended, and when it is one greater than that
threshold a `footer-only` descriptor with an empty item list is appended —
for every chunking cap and threshold configuration, hence for all three
variants. -/
theorem fit_check_exact_boundary (firstCap per : ℕ) (thF thS : ℤ)
    (items : List QuotationItem) (lp : Page QuotationItem)
    (hlast : (allocatePages firstCap per items).getLast? = some lp) :
    ((lp.items.length : ℤ) = fitThreshold thF thS lp.kind →
        quotationPages firstCap per thF thS items =
          allocatePages firstCap per items) ∧
    ((lp.items.length : ℤ) = fitThreshold thF thS lp.kind + 1 →
        quotationPages firstCap per thF thS items =
          allocatePages firstCap per items ++ [⟨PageKind.footerOnly, []⟩]) := by
  have he : isLastPageFull thF thS (allocatePages firstCap per items) =
      decide ((lp.items.length : ℤ) > fitThreshold thF thS lp.kind) := by
    unfold isLastPageFull
    rw [hlast]
  constructor
  · intro h
    unfold quotationPages
    rw [he, h]
    simp
  · intro h
    unfold quotationPages
    rw [he, h]
    simp

/-- C2 witness: with variant 2's configuration (first-page threshold 5), a
5-item list fits on its single page while a 6-item list gets a `footer-only`
page appended. -/
theorem fit_check_exact_boundary_witness :
    (((allocatePages 8 12 (List.replicate 5 sampleItem)).getLast? =
        some ⟨PageKind.first, List.replicate 5 sampleItem⟩) ∧
      quotationPages 8 12 5 8 (List.replicate 5 sampleItem) =
        allocatePages 8 12 (List.replicate 5 sampleItem)) ∧
    (((allocatePages 8 12 (List.replicate 6 sampleItem)).getLast? =
        some ⟨PageKind.first, List.replicate 6 sampleItem⟩) ∧
      quotationPages 8 12 5 8 (List.replicate 6 sampleItem) =
        allocatePages 8 12 (List.replicate 6 sampleItem) ++
          [⟨PageKind.footerOnly, []⟩]) := by
  have h5 : (allocatePages 8 12 (List.replicate 5 sampleItem)).getLast? =
      some ⟨PageKind.first, List.replicate 5 sampleItem⟩ := by
    simp [allocatePages, chunksOf_nil, List.take_replicate, List.drop_replicate]
  have h6 : (allocatePages 8 12 (List.replicate 6 sampleItem)).getLast? =
      some ⟨PageKind.first, List.replicate 6 sampleItem⟩ := by
    simp [allocatePages, chunksOf_nil, List.take_replicate, List.drop_replicate]
  refine ⟨⟨h5, ?_⟩, ⟨h6, ?_⟩⟩
  · exact (fit_check_exact_boundary 8 12 5 8 _ _ h5).1 (by
      simp [fitThreshold, List.length_replicate])
  · exact (fit_check_exact_boundary 8 12 5 8 _ _ h6).2 (by
      simp [fitThreshold, List.length_replicate])

/-- C10. In the chunking, every descriptor before the last item-bearing one is
full: the first descriptor holds exactly `min L ITEMS_PER_FIRST_PAGE` items,
every standard descriptor except the last holds exactly `ITEMS_PER_PAGE`
items, every standard descriptor is non-empty, and for a non-empty item list
no chunked descriptor at all has an empty item list — the invariant that
makes the fixed-offset serial numbering contiguous. -/
theorem chunking_full_pages_invariant (firstCap per : ℕ) (hfc : 0 < firstCap)
    (hper : 0 < per) (items : List QuotationItem) :
    ((allocatePages firstCap per items).map fun p => p.items.length).head? =
        some (min items.length firstCap) ∧
    (∀ p ∈ ((allocatePages firstCap per items).tail).dropLast,
        p.items.length = per) ∧
    (∀ p ∈ (allocatePages firstCap per items).tail,
        p.kind = PageKind.standard ∧ p.items ≠ []) ∧
    (items ≠ [] → ∀ p ∈ allocatePages firstCap per items, p.items ≠ []) := by
  refine ⟨?_, ?_, ?_, ?_⟩
  · simp [allocatePages, List.length_take, Nat.min_comm]
  · intro p hp
    simp only [allocatePages, List.tail_cons, ← List.map_dropLast] at hp
    rcases List.mem_map.mp hp with ⟨c, hc, rfl⟩
    exact chunksOf_dropLast_full per hper _ c hc
  · intro p hp
    simp only [allocatePages, List.tail_cons] at hp
    rcases List.mem_map.mp hp with ⟨c, hc, rfl⟩
    exact ⟨rfl, chunksOf_ne_nil per hper _ c hc⟩
  · intro hne p hp
    simp only [allocatePages, List.mem_cons] at hp
    rcases hp with rfl | hp
    · simp [List.take_eq_nil_iff, hne, Nat.pos_iff_ne_zero.mp hfc]
    · rcases List.mem_map.mp hp with ⟨c, hc, rfl⟩
      exact chunksOf_ne_nil per hper _ c hc

/-- C10 witness: the invariant instantiated at variant 1's caps (8/12) and a
concrete 20-item list. -/
theorem chunking_full_pages_invariant_witness :
    (0 < 8 ∧ 0 < 12) ∧
    (((allocatePages 8 12 (List.replicate 20 sampleItem)).map
          fun p => p.items.length).head? =
        some (min (List.replicate 20 sampleItem).length 8) ∧
      (∀ p ∈ ((allocatePages 8 12 (List.replicate 20 sampleItem)).tail).dropLast,
          p.items.length = 12) ∧
      (∀ p ∈ (allocatePages 8 12 (List.replicate 20 sampleItem)).tail,
          p.kind = PageKind.standard ∧ p.items ≠ []) ∧
      (List.replicate 20 sampleItem ≠ [] →
        ∀ p ∈ allocatePages 8 12 (List.replicate 20 sampleItem),
          p.items ≠ [])) :=
  ⟨⟨by norm_num, by norm_num⟩,
   chunking_full_pages_invariant 8 12 (by norm_num) (by norm_num)
     (List.replicate 20 sampleItem)⟩

/-- C8 helper: the fold of `calculateTotal` is the sum of the per-item line
totals. -/
theorem calculateTotal_eq_sum (items : List QuotationItem) :
    calculateTotal items =
      (items.map fun it => it.quantity * it.unitCost).sum := by
  have aux : ∀ (l : List QuotationItem) (acc : ℚ),
      l.foldl (fun a it => a + it.quantity * it.unitCost) acc =
        acc + (l.map fun it => it.quantity * it.unitCost).sum := by
    intro l
    induction l with
    | nil => intro acc; simp
    | cons x xs ih =>
        intro acc
        simp only [List.foldl_cons, List.map_cons, List.sum_cons, ih]
        ring
  simpa [calculateTotal] using aux items 0

/-- C8. The computed subtotal equals `Σ quantity × unitCost` over all items
exactly, and permuting the item list leaves it unchanged. -/
theorem subtotal_exact_and_order_independent (items : List QuotationItem) :
    calculateTotal items =
      (items.map fun it => it.quantity * it.unitCost).sum ∧
    ∀ other : List QuotationItem, items.Perm other →
      calculateTotal items = calculateTotal other := by
  refine ⟨calculateTotal_eq_sum items, ?_⟩
  intro other hp
  rw [calculateTotal_eq_sum, calculateTotal_eq_sum]
  exact List.Perm.sum_eq (hp.map _)

/-- C8 witness: swapping two concrete items leaves the subtotal unchanged. -/
theorem subtotal_exact_and_order_independent_witness :
    ([sampleItem, sampleItem2].Perm [sampleItem2, sampleItem]) ∧
    calculateTotal [sampleItem, sampleItem2] =
      calculateTotal [sampleItem2, sampleItem] :=
  ⟨List.Perm.swap sampleItem2 sampleItem [],
   (subtotal_exact_and_order_independent [sampleItem, sampleItem2]).2
     [sampleItem2, sampleItem] (List.Perm.swap sampleItem2 sampleItem [])⟩

/-- C3 counterexample: in the embedded second variant the displayed grand
total is the unrounded sum — on a document whose exact total is 1/2 it shows
1/2 while the rounded value is 1, so the claim's "in every renderer variant"
fails (this variant also computes no words form at all). -/
theorem variant2_grand_total_unrounded :
    grandTotal2 halfDollarData = 1 / 2 ∧
    jsRound (subTotal halfDollarData + vatAmount halfDollarData +
      taxAmount halfDollarData) = 1 ∧
    grandTotal2 halfDollarData <
      ((jsRound (subTotal halfDollarData + vatAmount halfDollarData +
        taxAmount halfDollarData) : ℤ) : ℚ) := by
  have hsub : subTotal halfDollarData = 1 / 2 := by
    simp [subTotal, calculateTotal, halfDollarData]
  have hvat : vatAmount halfDollarData = 0 := by
    simp [vatAmount, halfDollarData]
  have htax : taxAmount halfDollarData = 0 := by
    simp [taxAmount, halfDollarData]
  have hround : jsRound ((1 : ℚ) / 2 + 0 + 0) = 1 := by
    unfold jsRound
    norm_num
  refine ⟨?_, ?_, ?_⟩
  · rw [grandTotal2, hsub, hvat, htax]; norm_num
  · rw [hsub, hvat, htax]; exact hround
  · rw [grandTotal2, hsub, hvat, htax, hround]; norm_num

/-- C3 amended: variant 1 and the part_000 variant round the grand total to
the nearest integer unit and use that same rounded value for the displayed
figure and as input to the words conversion (whose Cents part vanishes on
the integer input); the embedded second variant displays the unrounded sum
and has no words form. -/
theorem grand_total_rounding_per_variant (d : QuotationData) :
    grandTotal1 d = jsRound (subTotal d + vatAmount d + taxAmount d) ∧
    grandTotalInWords1 d =
      numberToWords ((jsRound (subTotal d + vatAmount d + taxAmount d) : ℚ)) ∧
    decimalPart ((grandTotal1 d : ℚ)) = 0 ∧
    grandTotal2 d = subTotal d + vatAmount d + taxAmount d := by
  refine ⟨rfl, rfl, ?_, rfl⟩
  unfold decimalPart jsRound
  rw [Int.floor_intCast]
  norm_num

/-- C4 counterexample: with both tax rates zero, the embedded second
variant's footer renders only the Grand Total row — its Sub Total row is
gated on `hasTax`, so "the subtotal row is always rendered, for every
document" fails (variant 1 renders Sub-total and Grand Total). -/
theorem variant2_subtotal_row_gated :
    footerRows2 zeroRatesData = [FooterRow.grandTotalRow] ∧
    (footerRows2 zeroRatesData).contains FooterRow.subTotalRow = false ∧
    footerRows1 zeroRatesData =
      [FooterRow.subTotalRow, FooterRow.grandTotalRow] := by
  refine ⟨?_, ?_, ?_⟩ <;> decide

/-- C4 amended: on the last descriptor, variant 1 (and, identically,
part_000) renders the subtotal row and the grand-total row unconditionally
and each tax line exactly when its rate is positive; the embedded second
variant renders the grand-total row unconditionally but its subtotal row
appears if and only if `hasTax` holds. -/
theorem footer_rows_gating (d : QuotationData) :
    FooterRow.subTotalRow ∈ footerRows1 d ∧
    FooterRow.grandTotalRow ∈ footerRows1 d ∧
    FooterRow.grandTotalRow ∈ footerRows2 d ∧
    (FooterRow.subTotalRow ∈ footerRows2 d ↔ hasTax d = true) ∧
    (FooterRow.vatRow ∈ footerRows1 d ↔ 0 < d.vatRate) ∧
    (FooterRow.taxRow ∈ footerRows1 d ↔ 0 < d.taxRate) ∧
    (FooterRow.vatRow ∈ footerRows2 d ↔ 0 < d.vatRate) ∧
    (FooterRow.taxRow ∈ footerRows2 d ↔ 0 < d.taxRate) := by
  by_cases h1 : 0 < d.vatRate <;> by_cases h2 : 0 < d.taxRate <;>
    simp [footerRows1, footerRows2, hasTax, h1, h2]

/-- C7 counterexample: on input 1.999 the fractional Cents value is
`Math.round(0.999 × 100) = 100`, outside the claimed 0–99 range. -/
theorem decimal_part_overflow :
    decimalPart ((1999 : ℚ) / 1000) = 100 ∧
    99 < decimalPart ((1999 : ℚ) / 1000) := by
  have hfl : ⌊(1999 : ℚ) / 1000⌋ = 1 := by
    rw [Int.floor_eq_iff] <;> norm_num
  have h : decimalPart ((1999 : ℚ) / 1000) = 100 := by
    unfold decimalPart jsRound
    rw [hfl]
    rw [Int.floor_eq_iff] <;> norm_num
  exact ⟨h, by omega⟩

/-- C7 amended: for every non-negative input the fractional Cents value lies
in the range 0 to 100 (100 occurs exactly when the fractional part exceeds
0.995), and since it is never negative, the code's strictly-positive test for
appending the "and … Cents" suffix is equivalent to the claimed
nonzero test. -/
theorem decimal_part_range (num : ℚ) (h : 0 ≤ num) :
    0 ≤ decimalPart num ∧ decimalPart num ≤ 100 ∧
    (0 < decimalPart num ↔ decimalPart num ≠ 0) := by
  have hfr0 : (0 : ℚ) ≤ num - ⌊num⌋ := by
    have := Int.floor_le num
    linarith
  have hfr1 : num - ⌊num⌋ < 1 := by
    have := Int.lt_floor_add_one num
    linarith
  have h0 : 0 ≤ decimalPart num := by
    unfold decimalPart jsRound
    apply Int.floor_nonneg.mpr
    nlinarith
  have h100 : decimalPart num ≤ 100 := by
    unfold decimalPart jsRound
    have hlt : (num - ⌊num⌋) * 100 + 1 / 2 < ((101 : ℤ) : ℚ) := by
      push_cast
      nlinarith
    have := Int.floor_lt.mpr hlt
    omega
  exact ⟨h0, h100, by omega⟩

/-- C7 witness: the amended range at the concrete input 1.5 (Cents value
50). -/
theorem decimal_part_range_witness :
    (0 : ℚ) ≤ 3 / 2 ∧
    (0 ≤ decimalPart ((3 : ℚ) / 2) ∧ decimalPart ((3 : ℚ) / 2) ≤ 100 ∧
      (0 < decimalPart ((3 : ℚ) / 2) ↔ decimalPart ((3 : ℚ) / 2) ≠ 0)) :=
  ⟨by norm_num, decimal_part_range ((3 : ℚ) / 2) (by norm_num)⟩

/-- C9 (code bug). The two slider handlers in App.tsx do write both width
fields atomically as complements summing to 100, but the initial document
(`INITIAL_DATA` in types.ts) defines neither `notesBoxWidth` nor
`totalBoxWidth`, so the claimed invariant fails in the initial state. -/
theorem width_invariant_initial_state :
    widthSumInvariant initialWidthState = false ∧
    initialWidthState.notesBoxWidth = none ∧
    initialWidthState.totalBoxWidth = none ∧
    ∀ (st : WidthState) (v : ℤ),
      widthSumInvariant (setNotesBoxWidth st v) = true ∧
      widthSumInvariant (setTotalBoxWidth st v) = true := by
  refine ⟨rfl, rfl, rfl, ?_⟩
  intro st v
  constructor <;> simp [widthSumInvariant, setNotesBoxWidth, setTotalBoxWidth]

end Village
